import Mathlib

/-
Verification development for the title-abstractor reconciliation pipeline.

Shallow embedding of the post-extraction reconciliation core:
  deduplication.py            (inventory and document deduplication, merging)
  src/chain_builder.py        (name normalization/matching, continuity check)
  src/chain_analyzer.py       (date parsing and chronological ordering)
  src/legal_description_parser.py (parsed-description comparison)
  src/relationship_detector.py (chain date bookkeeping and final chain sort)

Conventions used throughout the embedding:
  - Python `None`-able string fields become `Option String`; places where the
    code collapses `None` and `""` (via `or ''` or truthiness) use `Option.getD`.
  - Python `str` truthiness (`if s:`) is `s ≠ ""` on the collapsed value.
  - Machine floats in similarity scores are modelled as `ℚ` (the code only
    adds, divides and compares them).
  - String primitives (lower, strip, split, replace) are implemented over
    `List Char` so that every definition evaluates inside the kernel; they
    model the corresponding CPython semantics on the ASCII data the pipeline
    handles.
-/

/-- Python-style substring test: `strContains s pat` is true when `pat` occurs
contiguously in `s` (models Python's `pat in s`). -/
def strContains (s pat : String) : Bool :=
  s.data.tails.any (fun t => pat.data.isPrefixOf t)

/-- Lowercasing, character by character (models `str.lower` on ASCII data). -/
def pyLower (s : String) : String :=
  ⟨s.data.map Char.toLower⟩

/-- Python `str.strip()`: drop leading and trailing whitespace. -/
def pyTrim (s : String) : String :=
  ⟨(((s.data.dropWhile Char.isWhitespace).reverse).dropWhile Char.isWhitespace).reverse⟩

/-- Worker for `pySplit`: gather maximal runs of non-whitespace characters,
discarding empty pieces, with the current run carried reversed. -/
def splitWsAux : List Char → List Char → List String
  | [], acc => if acc.isEmpty then [] else [⟨acc.reverse⟩]
  | c :: cs, acc =>
    if c.isWhitespace then
      if acc.isEmpty then splitWsAux cs []
      else (⟨acc.reverse⟩ : String) :: splitWsAux cs []
    else splitWsAux cs (c :: acc)

/-- Python `str.split()` with no argument: split on whitespace runs, dropping
empty pieces. -/
def pySplit (s : String) : List String :=
  splitWsAux s.data []

/-- Worker for `pyReplace`, structurally recursive on a fuel argument (the
input length is always enough fuel): replace each non-overlapping,
leftmost-first occurrence of the nonempty pattern `p :: ps` by `rep`. -/
def replaceCharsFuel (p : Char) (ps rep : List Char) : Nat → List Char → List Char
  | _, [] => []
  | 0, l => l
  | fuel + 1, c :: cs =>
    if (p :: ps).isPrefixOf (c :: cs) then
      rep ++ replaceCharsFuel p ps rep fuel (cs.drop ps.length)
    else
      c :: replaceCharsFuel p ps rep fuel cs

/-- Python `str.replace(pat, rep)` (all occurrences, left to right). -/
def pyReplace (s pat rep : String) : String :=
  match pat.data with
  | [] => s
  | p :: ps => ⟨replaceCharsFuel p ps rep.data s.data.length s.data⟩

/-- Replace every maximal whitespace run by a single space character (models
`re.sub(r'\s+', ' ', s)`); fuel-driven structural recursion as above. -/
def collapseWsFuel : Nat → List Char → List Char
  | _, [] => []
  | 0, l => l
  | fuel + 1, c :: cs =>
    if c.isWhitespace then ' ' :: collapseWsFuel fuel (cs.dropWhile Char.isWhitespace)
    else c :: collapseWsFuel fuel cs

/-- Entry point for whitespace collapsing on strings. -/
def collapseWs (s : String) : String :=
  ⟨collapseWsFuel s.data.length s.data⟩

/-- Python `a.startswith(b)`. -/
def pyStartsWith (a b : String) : Bool :=
  b.data.isPrefixOf a.data

/-- Python `a.endswith(b)`. -/
def pyEndsWith (a b : String) : Bool :=
  b.data.isSuffixOf a.data

/-- Python `len(s)` (count of characters). -/
def strLen (s : String) : Nat :=
  s.data.length

/-- The apostrophe character, written by code point to keep sources clean. -/
def apostropheChar : Char := Char.ofNat 39

/-- Name suffixes stripped by `ChainBuilder._normalize_name`. -/
def nameSuffixes : List String := [" jr.", " jr", " sr.", " sr", " ii", " iii", " iv"]

/-- Corporate-entity replacements applied, in order, by
`ChainBuilder._normalize_name`. -/
def corporateReplacements : List (String × String) :=
  [("corporation", "corp"), ("incorporated", "inc"), ("company", "co"),
   ("limited", "ltd"), ("limited liability company", "llc"), ("l.l.c.", "llc")]

/-- The suffix-stripping loop of `ChainBuilder._normalize_name`: each suffix is
tried once, in order; on a hit the suffix is cut and the rest re-stripped. -/
def stripNameSuffixes (name : String) : String :=
  nameSuffixes.foldl
    (fun n suf =>
      if pyEndsWith n suf then
        pyTrim ⟨n.data.take (n.data.length - suf.data.length)⟩
      else n)
    name

/-- `ChainBuilder._normalize_name`: lowercase and strip, drop generational
suffixes, abbreviate corporate words, remove `, . '` punctuation, collapse
whitespace, strip.  Python `None` input collapses to `""`. -/
def normalizeName (name : String) : String :=
  if name = "" then ""
  else
    let n1 := pyTrim (pyLower name)
    let n2 := stripNameSuffixes n1
    let n3 := corporateReplacements.foldl (fun n pr => pyReplace n pr.1 pr.2) n2
    let n4 : String := ⟨n3.data.filter (fun c => !(c == ',' || c == '.' || c == apostropheChar))⟩
    pyTrim (collapseWs n4)

/-- Marker substrings whose presence in either whole name triggers the
corporate branch of `ChainBuilder._names_match`. -/
def corpMarkers : List String := ["corp", "inc", "llc", "company", "co"]

/-- Token list filtered out when counting significant words in the corporate
branch of `ChainBuilder._names_match`. -/
def corpStopTokens : List String := ["corp", "inc", "llc", "co", "company", "ltd"]

/-- Significant (non-corporate) words of a name, as whitespace tokens. -/
def significantWords (name : String) : List String :=
  (pySplit name).filter (fun w => !(corpStopTokens.contains w))

/-- Number of significant words of `name1` (with multiplicity) that also occur
among the significant words of `name2`. -/
def sharedSignificantCount (name1 name2 : String) : Nat :=
  ((significantWords name1).filter (fun w => (significantWords name2).contains w)).length

/-- `ChainBuilder._names_match`, translated with its exact control flow
(including the branches made unreachable by the final `return True` of the
last-token case). -/
def namesMatch (name1 name2 : String) : Bool :=
  if name1 = name2 then true
  else
    let parts1 := pySplit name1
    let parts2 := pySplit name2
    if parts1.isEmpty || parts2.isEmpty then false
    else
      let corpHit := corpMarkers.any (fun c => strContains name1 c) ||
                     corpMarkers.any (fun c => strContains name2 c)
      let corpMatched :=
        if corpHit then
          decide (min 2 (min (significantWords name1).length (significantWords name2).length)
            ≤ sharedSignificantCount name1 name2)
        else false
      if corpMatched then true
      else
        match parts1.getLast?, parts2.getLast? with
        | some last1, some last2 =>
          if last1 = last2 then
            if 2 ≤ parts1.length && 2 ≤ parts2.length then
              let first1 := parts1.headI
              let first2 := parts2.headI
              if first1 = first2 then true
              else if strLen first1 = 1 && pyStartsWith first2 first1 then true
              else if strLen first2 = 1 && pyStartsWith first1 first2 then true
              else true
            else true
          else false
        | _, _ => false

/-- Parsed metes-and-bounds component (shape of the dict produced by
`LegalDescriptionParser._extract_metes_bounds`). -/
structure MetesBounds where
  present : Bool
  starting_point : Option String
  full_description : String
deriving DecidableEq

/-- Parsed deed reference (shape of the dict produced by
`LegalDescriptionParser._extract_deed_reference`). -/
structure DeedRef where
  book : String
  page : String
  full_reference : String
deriving DecidableEq

/-- A parsed legal description (shape of `LegalDescriptionParser.parse`
output).  Absent components are `none` / `[]`, matching the Python `None` /
empty-list values. -/
structure ParsedDescription where
  metes_bounds : Option MetesBounds
  deed_reference : Option DeedRef
  tax_parcel_id : Option String
  lot_numbers : List Nat
  block_numbers : List Nat
  street_address : Option String
  subdivision : Option String
  map_reference : Option String
  raw_text : String
deriving DecidableEq

/-- Python truthiness for an optional string field: `None` and `""` are
falsy, everything else truthy. -/
def strTruthy (o : Option String) : Bool :=
  o.getD "" != ""

/-- Priority 6 (subdivision) and the conservative default of
`LegalDescriptionParser.compare`. -/
def compareSubdivisionRule (a b : ParsedDescription) : String :=
  if strTruthy a.subdivision = true ∧ strTruthy b.subdivision = true then
    if pyTrim (pyLower (a.subdivision.getD "")) = pyTrim (pyLower (b.subdivision.getD "")) then
      "SAME"
    else "DIFFERENT"
  else "DIFFERENT"

/-- Priority 5 (street address) of `LegalDescriptionParser.compare`. -/
def compareAddressRule (a b : ParsedDescription) : String :=
  if strTruthy a.street_address = true ∧ strTruthy b.street_address = true then
    if pyTrim (pyLower (a.street_address.getD "")) = pyTrim (pyLower (b.street_address.getD "")) then
      "SAME"
    else "DIFFERENT"
  else compareSubdivisionRule a b

/-- Priority 4 (lot-number sets) of `LegalDescriptionParser.compare`. -/
def compareLotsRule (a b : ParsedDescription) : String :=
  let lotsA := a.lot_numbers.toFinset
  let lotsB := b.lot_numbers.toFinset
  if lotsA.Nonempty ∧ lotsB.Nonempty then
    if lotsA = lotsB then "SAME"
    else if lotsA ⊆ lotsB then "SUBSET"
    else if lotsB ⊆ lotsA then "SUPERSET"
    else if (lotsA ∩ lotsB).Nonempty then "PARTIAL_OVERLAP"
    else "DIFFERENT"
  else compareAddressRule a b

/-- Priority 3 (tax parcel id) of `LegalDescriptionParser.compare`. -/
def compareTaxRule (a b : ParsedDescription) : String :=
  if strTruthy a.tax_parcel_id = true ∧ strTruthy b.tax_parcel_id = true then
    if a.tax_parcel_id.getD "" = b.tax_parcel_id.getD "" then "SAME" else "DIFFERENT"
  else compareLotsRule a b

/-- Priority 2 (deed reference) of `LegalDescriptionParser.compare`.  On a
book/page match it concludes SAME; otherwise control falls through to the
lower-priority rules (the source has no else-branch here). -/
def compareDeedRule (a b : ParsedDescription) : String :=
  match a.deed_reference, b.deed_reference with
  | some ra, some rb =>
    if ra.book = rb.book ∧ ra.page = rb.page then "SAME" else compareTaxRule a b
  | _, _ => compareTaxRule a b

/-- `LegalDescriptionParser.compare`: priority 1 (metes and bounds) followed
by the cascade of the remaining rules. -/
def compareDescriptions (a b : ParsedDescription) : String :=
  match a.metes_bounds, b.metes_bounds with
  | some mba, some mbb =>
    let sa := mba.starting_point.getD ""
    let sb := mbb.starting_point.getD ""
    if sa ≠ "" ∧ sb ≠ "" ∧ pyTrim (pyLower sa) = pyTrim (pyLower sb) then "SAME"
    else "DIFFERENT"
  | _, _ => compareDeedRule a b

/-- Exchanges SUBSET and SUPERSET, fixing the other comparison outcomes. -/
def dualResult (r : String) : String :=
  if r = "SUBSET" then "SUPERSET"
  else if r = "SUPERSET" then "SUBSET"
  else r

/-- Page-location record of an extracted document (the `pageLocation` dict
and the entries of `allPageLocations`). -/
structure PageLoc where
  pstart : Option Int
  pend : Option Int
  note : Option String
deriving DecidableEq

/-- Python truthiness of an optional integer (`None` and `0` are falsy). -/
def intTruthy (o : Option Int) : Bool :=
  match o with
  | none => false
  | some n => n != 0

/-- Python dict truthiness for a page-location record: an empty dict is
falsy. -/
def pageLocTruthy (p : PageLoc) : Bool :=
  !(p.pstart == none && p.pend == none && p.note == none)

/-- Python `str(x)` for the optional ints interpolated into page-range notes
(`None` prints as "None"). -/
def optIntText (o : Option Int) : String :=
  match o with
  | none => "None"
  | some n => toString n

/-- An inventory entry from extraction pass 1: type plus page range (the
fields `deduplicate_inventory` reads). -/
structure InventoryEntry where
  etype : String
  pstart : Option Int
  pend : Option Int
deriving DecidableEq

/-- `_is_likely_same_document_inventory`: same lowered/stripped type, all four
page bounds truthy, and page ranges overlapping by more than half of either
range. -/
def isLikelySameDocumentInventory (doc1 doc2 : InventoryEntry) : Bool :=
  let type1 := pyTrim (pyLower doc1.etype)
  let type2 := pyTrim (pyLower doc2.etype)
  if type1 != type2 then false
  else if !(intTruthy doc1.pstart && intTruthy doc1.pend &&
            intTruthy doc2.pstart && intTruthy doc2.pend) then false
  else
    let start1 := doc1.pstart.getD 0
    let end1 := doc1.pend.getD 0
    let start2 := doc2.pstart.getD 0
    let end2 := doc2.pend.getD 0
    if end1 < start2 ∨ end2 < start1 then false
    else
      let overlapStart := max start1 start2
      let overlapEnd := min end1 end2
      let overlapPages : ℚ := ((overlapEnd - overlapStart + 1 : Int) : ℚ)
      let range1Pages : Int := end1 - start1 + 1
      let range2Pages : Int := end2 - start2 + 1
      let overlapPct1 : ℚ := if 0 < range1Pages then overlapPages / ((range1Pages : ℚ)) else 0
      let overlapPct2 : ℚ := if 0 < range2Pages then overlapPages / ((range2Pages : ℚ)) else 0
      if (0.5 : ℚ) < overlapPct1 ∨ (0.5 : ℚ) < overlapPct2 then true else false

/-- Exact-signature string used by pass-1 dedup
(`f"{doc_type}|{start_page}|{end_page}"`). -/
def inventorySignature (t : String) (s e : Int) : String :=
  t ++ "|" ++ toString s ++ "|" ++ toString e

/-- Loop worker for `deduplicate_inventory`: `acc` is `unique_docs` and `seen`
is `seen_signatures` (a list models the Python set; only membership and
insertion are used). -/
def deduplicateInventoryGo :
    List InventoryEntry → List InventoryEntry → List String → List InventoryEntry
  | [], acc, _ => acc
  | d :: rest, acc, seen =>
    if !(intTruthy d.pstart && intTruthy d.pend) then
      deduplicateInventoryGo rest (acc ++ [d]) seen
    else
      let docType := pyTrim (pyLower d.etype)
      let sig := inventorySignature docType (d.pstart.getD 0) (d.pend.getD 0)
      if seen.contains sig then
        deduplicateInventoryGo rest acc seen
      else if acc.any (fun e => isLikelySameDocumentInventory d e) then
        deduplicateInventoryGo rest acc seen
      else
        deduplicateInventoryGo rest (acc ++ [d]) (seen ++ [sig])

/-- `deduplicate_inventory`. -/
def deduplicateInventory (inventory : List InventoryEntry) : List InventoryEntry :=
  if inventory.isEmpty then inventory
  else deduplicateInventoryGo inventory [] []

/-- Identity fields of an extracted document record: exactly the fields read
by `_calculate_document_similarity` (and never changed by
`_merge_documents`).  The nested Python paths are flattened:
`recording.locationInstrumentNumber`, `documentType`, `dates.recordDate`,
`parties.from`, `parties.to`, `property.legalDescription`. -/
structure DocIdentity where
  locationInstrumentNumber : Option String
  documentType : Option String
  recordDate : Option String
  partiesFrom : List String
  partiesTo : List String
  legalDescription : Option String
deriving DecidableEq

/-- An extracted document record: identity fields plus the fields
`_merge_documents` mutates.  `notes` collapses Python `None` to `""` (the
code only reads notes through `or ''`). -/
structure DedupDoc where
  ident : DocIdentity
  notes : String
  pageLocation : PageLoc
  allPageLocations : Option (List PageLoc)
deriving DecidableEq

/-- `_normalize_string`: lowercase, strip, and re-join on single spaces;
`None` and `""` give `""`. -/
def normalizeString (o : Option String) : String :=
  let s := o.getD ""
  if s = "" then ""
  else String.intercalate " " (pySplit (pyTrim (pyLower s)))

/-- `_normalize_doc_type`: coarse keyword buckets by substring. -/
def normalizeDocType (docType : String) : String :=
  let dt := pyTrim (pyLower docType)
  if strContains dt "deed" then "deed"
  else if strContains dt "mortgage" then "mortgage"
  else if strContains dt "satisfaction" || strContains dt "discharge" then "satisfaction"
  else if strContains dt "judgment" then "judgment"
  else if strContains dt "lien" then "lien"
  else dt

/-- Python `s[:n]` on strings. -/
def strTake (s : String) (n : Nat) : String :=
  ⟨s.data.take n⟩

/-- `_calculate_document_similarity`.  The function is parametric in
`textSim`, modelling `difflib.SequenceMatcher(None, a, b).ratio()` from the
Python standard library (external to this repository); every other part is
translated from the source.  Scores and weights live in `ℚ`. -/
def calculateDocumentSimilarity (textSim : String → String → ℚ)
    (doc1 doc2 : DocIdentity) : ℚ :=
  let recording1 := normalizeString doc1.locationInstrumentNumber
  let recording2 := normalizeString doc2.locationInstrumentNumber
  let recApplicable := recording1 ≠ "" ∧ recording2 ≠ ""
  let type1 := normalizeString doc1.documentType
  let type2 := normalizeString doc2.documentType
  let typeApplicable := type1 ≠ "" ∧ type2 ≠ ""
  let date1 := normalizeString doc1.recordDate
  let date2 := normalizeString doc2.recordDate
  let dateApplicable := date1 ≠ "" ∧ date2 ≠ ""
  let from1 := (doc1.partiesFrom.map (fun p => normalizeString (some p))).toFinset
  let to1 := (doc1.partiesTo.map (fun p => normalizeString (some p))).toFinset
  let from2 := (doc2.partiesFrom.map (fun p => normalizeString (some p))).toFinset
  let to2 := (doc2.partiesTo.map (fun p => normalizeString (some p))).toFinset
  let partiesApplicable := from1.Nonempty ∧ from2.Nonempty ∧ to1.Nonempty ∧ to2.Nonempty
  let legal1 := pyTrim (doc1.legalDescription.getD "")
  let legal2 := pyTrim (doc2.legalDescription.getD "")
  let legalApplicable := legal1 ≠ "" ∧ legal2 ≠ ""
  let score : ℚ :=
    (if recApplicable then (if recording1 = recording2 then 0.4 else 0) else 0) +
    (if typeApplicable then
       (if type1 = type2 then 0.2
        else if normalizeDocType type1 = normalizeDocType type2 then 0.15 else 0)
     else 0) +
    (if dateApplicable then (if date1 = date2 then 0.15 else 0) else 0) +
    (if partiesApplicable then
       0.15 * ((((from1 ∩ from2).card : ℚ) / ((max from1.card from2.card : Nat) : ℚ) +
                ((to1 ∩ to2).card : ℚ) / ((max to1.card to2.card : Nat) : ℚ)) / 2)
     else 0) +
    (if legalApplicable then 0.1 * textSim (strTake legal1 500) (strTake legal2 500) else 0)
  let totalWeight : ℚ :=
    (if recApplicable then 0.4 else 0) +
    (if typeApplicable then 0.2 else 0) +
    (if dateApplicable then 0.15 else 0) +
    (if partiesApplicable then 0.15 else 0) +
    (if legalApplicable then 0.1 else 0)
  if 0 < totalWeight then score / totalWeight else 0

/-- Keywords whose presence in lowered notes marks discharge/satisfaction
information. -/
def dischargeKeywords : List String :=
  ["discharged", "satisfied", "released", "paid in full", "cancelled", "terminated"]

/-- `_has_discharge_info`. -/
def hasDischargeInfo (notes : String) : Bool :=
  if notes = "" then false
  else dischargeKeywords.any (fun k => strContains (pyLower notes) k)

/-- Text of one page range inside the merged multiple-pages note. -/
def pageRangeText (p : PageLoc) : String :=
  optIntText p.pstart ++ "-" ++ optIntText p.pend

/-- `_merge_documents`: accumulate page locations, recompute the overall
start/end and note when any truthy bounds exist, and merge notes with
priority to discharge information.  Only `allPageLocations`, `pageLocation`
and `notes` change; the identity fields are untouched. -/
def mergeDocuments (existing duplicate : DedupDoc) : DedupDoc :=
  let all0 :=
    match existing.allPageLocations with
    | none => [existing.pageLocation]
    | some l => l
  let all1 := if pageLocTruthy duplicate.pageLocation then all0 ++ [duplicate.pageLocation] else all0
  let allStarts := all1.filterMap (fun p => if intTruthy p.pstart then p.pstart else none)
  let allEnds := all1.filterMap (fun p => if intTruthy p.pend then p.pend else none)
  let newPageLoc :=
    match allStarts, allEnds with
    | s0 :: ss, e0 :: es =>
      { pstart := some (ss.foldl min s0),
        pend := some (es.foldl max e0),
        note := some ("Document appears on multiple pages: " ++
          String.intercalate ", " (all1.map pageRangeText)) }
    | _, _ => existing.pageLocation
  let newNotes :=
    if hasDischargeInfo duplicate.notes = true ∧ hasDischargeInfo existing.notes = false then
      duplicate.notes
    else if hasDischargeInfo existing.notes = true then
      existing.notes
    else if duplicate.notes ≠ "" ∧ duplicate.notes ≠ existing.notes then
      (if existing.notes ≠ "" then existing.notes ++ " | " ++ duplicate.notes
       else duplicate.notes)
    else existing.notes
  { existing with
    allPageLocations := some all1,
    pageLocation := newPageLoc,
    notes := newNotes }

/-- Inner scan of `deduplicate_documents`: find the first already-accepted
document whose similarity with the incoming one reaches the 0.85 threshold
and merge into it in place; `none` when no existing document qualifies. -/
def mergeIntoFirstSimilar (textSim : String → String → ℚ) (d : DedupDoc) :
    List DedupDoc → Option (List DedupDoc)
  | [] => none
  | e :: es =>
    if (0.85 : ℚ) ≤ calculateDocumentSimilarity textSim d.ident e.ident then
      some (mergeDocuments e d :: es)
    else
      (mergeIntoFirstSimilar textSim d es).map (fun l => e :: l)

/-- Loop worker for `deduplicate_documents` (`acc` is `unique_docs`). -/
def deduplicateDocumentsGo (textSim : String → String → ℚ) :
    List DedupDoc → List DedupDoc → List DedupDoc
  | [], acc => acc
  | d :: rest, acc =>
    match mergeIntoFirstSimilar textSim d acc with
    | some acc2 => deduplicateDocumentsGo textSim rest acc2
    | none => deduplicateDocumentsGo textSim rest (acc ++ [d])

/-- `deduplicate_documents`. -/
def deduplicateDocuments (textSim : String → String → ℚ)
    (documents : List DedupDoc) : List DedupDoc :=
  if documents.length ≤ 1 then documents
  else deduplicateDocumentsGo textSim documents []

/-- Full month names accepted by strptime's `%B` directive (matched
case-insensitively). -/
def monthNamesFull : List (String × Nat) :=
  [("january", 1), ("february", 2), ("march", 3), ("april", 4), ("may", 5),
   ("june", 6), ("july", 7), ("august", 8), ("september", 9), ("october", 10),
   ("november", 11), ("december", 12)]

/-- Abbreviated month names accepted by strptime's `%b` directive. -/
def monthNamesAbbrev : List (String × Nat) :=
  [("jan", 1), ("feb", 2), ("mar", 3), ("apr", 4), ("may", 5), ("jun", 6),
   ("jul", 7), ("aug", 8), ("sep", 9), ("oct", 10), ("nov", 11), ("dec", 12)]

/-- Case-insensitive prefix match of one month name from the table; returns
the month number and the remaining characters. -/
def matchMonth (tbl : List (String × Nat)) (cs : List Char) : Option (Nat × List Char) :=
  tbl.findSome? (fun p =>
    if p.1.data.isPrefixOf (cs.map Char.toLower) then some (p.2, cs.drop p.1.data.length)
    else none)

/-- One-or-more whitespace (strptime turns a space in the format into
`\s+`). -/
def eatWs1 (cs : List Char) : Option (List Char) :=
  match cs with
  | c :: rest => if c.isWhitespace then some (rest.dropWhile Char.isWhitespace) else none
  | [] => none

/-- A single literal character of the format. -/
def eatChar (ch : Char) (cs : List Char) : Option (List Char) :=
  match cs with
  | c :: rest => if c = ch then some rest else none
  | [] => none

/-- Numeric value of a decimal digit character. -/
def digitVal (c : Char) : Nat :=
  c.toNat - 48

/-- Candidate parses for strptime's 1-or-2-digit numeric directives (`%d`,
`%m`); the regex lists the two-digit alternatives before the single digit,
and the matcher backtracks in that order. -/
def num12Candidates (lo hi : Nat) (cs : List Char) : List (Nat × List Char) :=
  (match cs with
   | c1 :: c2 :: rest =>
     if c1.isDigit ∧ c2.isDigit then
       let v := digitVal c1 * 10 + digitVal c2
       if lo ≤ v ∧ v ≤ hi then [(v, rest)] else []
     else []
   | _ => []) ++
  (match cs with
   | c1 :: rest =>
     if c1.isDigit ∧ 1 ≤ digitVal c1 then [(digitVal c1, rest)] else []
   | _ => [])

/-- Exactly four digits (strptime's `%Y`). -/
def num4 (cs : List Char) : Option (Nat × List Char) :=
  match cs with
  | c1 :: c2 :: c3 :: c4 :: rest =>
    if c1.isDigit ∧ c2.isDigit ∧ c3.isDigit ∧ c4.isDigit then
      some (digitVal c1 * 1000 + digitVal c2 * 100 + digitVal c3 * 10 + digitVal c4, rest)
    else none
  | _ => none

/-- Gregorian leap-year rule used by `datetime`. -/
def isLeapYear (y : Nat) : Bool :=
  y % 4 = 0 && (y % 100 != 0 || y % 400 = 0)

/-- Days in a month, as validated by the `datetime` constructor. -/
def daysInMonth (y m : Nat) : Nat :=
  if m = 2 then (if isLeapYear y then 29 else 28)
  else if m = 4 ∨ m = 6 ∨ m = 9 ∨ m = 11 then 30
  else 31

/-- The `datetime(year, month, day)` constructor's validation (month is
already in 1..12 from the pattern): a `ValueError` becomes `none`, making
`strptime` fall through to the caller's next format. -/
def validDate (y m d : Nat) : Option (Nat × Nat × Nat) :=
  if 1 ≤ y ∧ y ≤ 9999 ∧ 1 ≤ d ∧ d ≤ daysInMonth y m then some (y, m, d) else none

/-- strptime with format `"%B %d, %Y"` (or `"%b %d, %Y"` with the
abbreviated table): month name, whitespace, day, comma, whitespace, 4-digit
year, end of input. -/
def parseFmtMonthDayCommaYear (tbl : List (String × Nat)) (s : List Char) :
    Option (Nat × Nat × Nat) :=
  (matchMonth tbl s).bind (fun mr =>
    (eatWs1 mr.2).bind (fun r2 =>
      (num12Candidates 1 31 r2).findSome? (fun dr =>
        (eatChar ',' dr.2).bind (fun r4 =>
          (eatWs1 r4).bind (fun r5 =>
            (num4 r5).bind (fun yr =>
              if yr.2.isEmpty then some (yr.1, mr.1, dr.1) else none))))))

/-- strptime with format `"%B %d %Y"` (long month, no comma). -/
def parseFmtMonthDayYear (tbl : List (String × Nat)) (s : List Char) :
    Option (Nat × Nat × Nat) :=
  (matchMonth tbl s).bind (fun mr =>
    (eatWs1 mr.2).bind (fun r2 =>
      (num12Candidates 1 31 r2).findSome? (fun dr =>
        (eatWs1 dr.2).bind (fun r4 =>
          (num4 r4).bind (fun yr =>
            if yr.2.isEmpty then some (yr.1, mr.1, dr.1) else none)))))

/-- strptime with format `"%m/%d/%Y"` or `"%m-%d-%Y"` (`sep` is the literal
separator). -/
def parseFmtMonthDayYearSep (sep : Char) (s : List Char) : Option (Nat × Nat × Nat) :=
  (num12Candidates 1 12 s).findSome? (fun mr =>
    (eatChar sep mr.2).bind (fun r2 =>
      (num12Candidates 1 31 r2).findSome? (fun dr =>
        (eatChar sep dr.2).bind (fun r4 =>
          (num4 r4).bind (fun yr =>
            if yr.2.isEmpty then some (yr.1, mr.1, dr.1) else none)))))

/-- strptime with format `"%Y-%m-%d"`. -/
def parseFmtYearMonthDay (s : List Char) : Option (Nat × Nat × Nat) :=
  (num4 s).bind (fun yr =>
    (eatChar '-' yr.2).bind (fun r2 =>
      (num12Candidates 1 12 r2).findSome? (fun mr =>
        (eatChar '-' mr.2).bind (fun r4 =>
          (num12Candidates 1 31 r4).findSome? (fun dr =>
            if dr.2.isEmpty then some (yr.1, mr.1, dr.1) else none)))))

/-- `ChainAnalyzer._parse_date`: the six accepted formats, tried in order;
a shape match whose date fails `datetime` validation falls through to the
next format exactly as the caught `ValueError` does. -/
def parseDateAnalyzer (dateStr : String) : Option (Nat × Nat × Nat) :=
  if dateStr = "" ∨ dateStr = "None" then none
  else
    let s := (pyTrim dateStr).data
    ((parseFmtMonthDayCommaYear monthNamesFull s).bind (fun t => validDate t.1 t.2.1 t.2.2)) <|>
    ((parseFmtMonthDayCommaYear monthNamesAbbrev s).bind (fun t => validDate t.1 t.2.1 t.2.2)) <|>
    ((parseFmtMonthDayYearSep '/' s).bind (fun t => validDate t.1 t.2.1 t.2.2)) <|>
    ((parseFmtYearMonthDay s).bind (fun t => validDate t.1 t.2.1 t.2.2)) <|>
    ((parseFmtMonthDayYearSep '-' s).bind (fun t => validDate t.1 t.2.1 t.2.2)) <|>
    ((parseFmtMonthDayYear monthNamesFull s).bind (fun t => validDate t.1 t.2.1 t.2.2))

/-- Word characters for the `\b` boundaries of the year-fallback regex. -/
def isWordChar (c : Char) : Bool :=
  c.isAlphanum || c = '_'

/-- Boundary test before a match position. -/
def boundaryBefore : Option Char → Bool
  | none => true
  | some p => !isWordChar p

/-- Boundary test after a match. -/
def boundaryAfter : List Char → Bool
  | [] => true
  | r :: _ => !isWordChar r

/-- Left-to-right scan for `re.search(r'\b(19|20)\d{2}\b', s)`: the first
position holding a 19xx/20xx four-digit group with word boundaries. -/
def findYearAux : Option Char → List Char → Option Nat
  | prev, c1 :: c2 :: c3 :: c4 :: rest =>
    if boundaryBefore prev &&
       ((c1 == '1' && c2 == '9') || (c1 == '2' && c2 == '0')) &&
       c3.isDigit && c4.isDigit && boundaryAfter rest then
      some (digitVal c1 * 1000 + digitVal c2 * 100 + digitVal c3 * 10 + digitVal c4)
    else findYearAux (some c1) (c2 :: c3 :: c4 :: rest)
  | _, _ => none

/-- Entry point of the year-fallback search. -/
def findYear (cs : List Char) : Option Nat :=
  findYearAux none cs

/-- `RelationshipDetector._date_sort_key` (the identical copy in
`ChainBuilder._date_sort_key` shares this embedding): parse
`"%B %d, %Y"`, then `"%m/%d/%Y"`, `"%Y-%m-%d"`, `"%B %d %Y"`; fall back to a
bare 19xx/20xx year; unknowns sort to `(9999, 12, 31)`. -/
def dateSortKey (dateStr : String) : Nat × Nat × Nat :=
  if dateStr = "" ∨ dateStr = "Unknown" then (9999, 12, 31)
  else
    let s := dateStr.data
    match ((parseFmtMonthDayCommaYear monthNamesFull s).bind (fun t => validDate t.1 t.2.1 t.2.2)) <|>
          ((parseFmtMonthDayYearSep '/' s).bind (fun t => validDate t.1 t.2.1 t.2.2)) <|>
          ((parseFmtYearMonthDay s).bind (fun t => validDate t.1 t.2.1 t.2.2)) <|>
          ((parseFmtMonthDayYear monthNamesFull s).bind (fun t => validDate t.1 t.2.1 t.2.2)) with
    | some t => t
    | none =>
      match findYear s with
      | some y => (y, 1, 1)
      | none => (9999, 12, 31)

/-- Ascending order on `(year, month, day)` triples, as `datetime` comparison
behaves for the keys in play. -/
def dateKeyLe (a b : Nat × Nat × Nat) : Prop :=
  a.1 < b.1 ∨ (a.1 = b.1 ∧ (a.2.1 < b.2.1 ∨ (a.2.1 = b.2.1 ∧ a.2.2 ≤ b.2.2)))

instance : DecidableRel dateKeyLe := fun a b => by
  unfold dateKeyLe
  infer_instance

/-- `RelationshipDetector._get_earliest_date`, over the chain documents'
`recordDate` strings: keep truthy dates, stable-sort by the date key, take
the first; `"Unknown"` when none. -/
def getEarliestDate (recordDates : List String) : String :=
  let dates := recordDates.filter (fun s => s != "")
  if dates.isEmpty then "Unknown"
  else
    (dates.insertionSort (fun s1 s2 => dateKeyLe (dateSortKey s1) (dateSortKey s2))).headI

/-- A chain as assembled by `RelationshipDetector._build_chains` (the fields
its final sort reads, plus identification). -/
structure DetChain where
  chain_id : String
  document_ids : List Nat
  earliest_date : String
deriving DecidableEq

/-- Python `<=` on strings over character lists: lexicographic by code
point. -/
def strLeChars : List Char → List Char → Bool
  | [], _ => true
  | _ :: _, [] => false
  | a :: as, b :: bs =>
    if a.toNat < b.toNat then true
    else if b.toNat < a.toNat then false
    else strLeChars as bs

/-- Python `a <= b` for strings. -/
def pyStrLe (a b : String) : Bool :=
  strLeChars a.data b.data

/-- The final chain sort of `_build_chains`:
`chains.sort(key=lambda c: c['earliest_date'])` — a stable sort keyed on the
RAW date string, i.e. lexicographic string order, not the parsed date key. -/
def sortChainsByEarliestDate (chains : List DetChain) : List DetChain :=
  chains.insertionSort (fun c1 c2 => pyStrLe c1.earliest_date c2.earliest_date = true)

/-- An extracted document as seen by `ChainAnalyzer.analyze_chain` steps 1-3
(dates parsing and ordering): the sort reads only `dates.recordDate`;
`documentType` is carried along as in the source records. -/
structure AnalyzerDoc where
  recordDate : Option String
  documentType : Option String
deriving DecidableEq

/-- The step-1 test deciding whether a document joins `docs_with_dates`:
a truthy record date, not the literal string "None", not whitespace-only,
and parseable by `_parse_date`. -/
def analyzerDated (d : AnalyzerDoc) : Bool :=
  let rd := d.recordDate.getD ""
  if rd = "" || rd == "None" || pyTrim rd == "" then false
  else (parseDateAnalyzer rd).isSome

/-- The sort key of step 2 (`_parsed_record_date`; `datetime.min` is
`(1, 1, 1)` and is never reached for dated documents). -/
def analyzerSortKey (d : AnalyzerDoc) : Nat × Nat × Nat :=
  (parseDateAnalyzer (d.recordDate.getD "")).getD (1, 1, 1)

/-- Steps 1-3 of `ChainAnalyzer.analyze_chain`: split off documents without a
parseable date (preserving order), stable-sort the dated ones ascending, and
append the undated ones unchanged.  This is the `sorted_docs` component of
the result. -/
def analyzeChainSorted (documents : List AnalyzerDoc) : List AnalyzerDoc :=
  if documents.isEmpty then documents
  else
    let p := documents.partition analyzerDated
    (p.1.insertionSort (fun d1 d2 => dateKeyLe (analyzerSortKey d1) (analyzerSortKey d2))) ++ p.2

/-- A chain document as enriched by `ChainBuilder._enrich_chains` (the fields
`_verify_party_connections` and `_is_duplicate_deed` read; the `.get(..., '')`
defaults are baked into the plain string fields). -/
structure VerifyDoc where
  doc_id : Nat
  doc_type : String
  partiesFrom : List String
  partiesTo : List String
  recording : String
  recordDate : String
deriving DecidableEq

/-- An issue record. -/
structure Issue where
  itype : String
  severity : String
  chain_id : String
  doc_a : Nat
  doc_b : Nat
  message : String
deriving DecidableEq

/-- An enriched chain, as consumed by `_verify_party_connections`. -/
structure BuilderChain where
  chain_id : String
  documents : List VerifyDoc
  issues : List Issue
  verified : Bool
deriving DecidableEq

/-- `ChainBuilder._is_duplicate_deed`: same truthy recording locator, or same
record date with identical normalized party sets. -/
def isDuplicateDeed (deed1 deed2 : VerifyDoc) : Bool :=
  if deed1.recording ≠ "" ∧ deed2.recording ≠ "" ∧ deed1.recording = deed2.recording then true
  else if deed1.recordDate = deed2.recordDate ∧
      (deed1.partiesFrom.map normalizeName).toFinset = (deed2.partiesFrom.map normalizeName).toFinset ∧
      (deed1.partiesTo.map normalizeName).toFinset = (deed2.partiesTo.map normalizeName).toFinset then
    true
  else false

/-- The nested any-grantee-matches-any-grantor loop over normalized names. -/
def grantorGranteeMatch (currentTo nextFrom : List String) : Bool :=
  (currentTo.map normalizeName).any (fun grantee =>
    (nextFrom.map normalizeName).any (fun grantor => namesMatch grantee grantor))

/-- First party of a list, or the literal "Unknown" (the message fallback). -/
def headOrUnknown (l : List String) : String :=
  match l with
  | [] => "Unknown"
  | x :: _ => x

/-- The CRITICAL BROKEN_CHAIN issue emitted for a disconnected deed pair. -/
def brokenChainIssue (chainId : String) (currentDeed nextDeed : VerifyDoc) : Issue :=
  { itype := "BROKEN_CHAIN", severity := "CRITICAL", chain_id := chainId,
    doc_a := currentDeed.doc_id, doc_b := nextDeed.doc_id,
    message := "Document #" ++ toString nextDeed.doc_id ++ ": " ++
      headOrUnknown nextDeed.partiesFrom ++
      " conveys property but was never a grantee in this chain. Last valid owner: " ++
      headOrUnknown currentDeed.partiesTo ++ " (Doc #" ++ toString currentDeed.doc_id ++ ")" }

/-- Whether one consecutive deed pair is flagged: not a duplicate pair, both
party lists truthy, and no grantee of the earlier deed matches a grantor of
the later one (the two `continue`s of the loop body). -/
def pairShouldFlag (a b : VerifyDoc) : Bool :=
  if isDuplicateDeed a b then false
  else if a.partiesTo.isEmpty || b.partiesFrom.isEmpty then false
  else !grantorGranteeMatch a.partiesTo b.partiesFrom

/-- Issues appended by the `for i in range(len(deeds) - 1)` loop of
`_verify_party_connections`, in order. -/
def verifyPairIssues (chainId : String) : List VerifyDoc → List Issue
  | a :: b :: rest =>
    (if pairShouldFlag a b then [brokenChainIssue chainId a b] else []) ++
      verifyPairIssues chainId (b :: rest)
  | _ => []

/-- The deed sub-list of a chain (`'deed' in d['doc_type'].lower()`). -/
def chainDeeds (ch : BuilderChain) : List VerifyDoc :=
  ch.documents.filter (fun d => strContains (pyLower d.doc_type) "deed")

/-- `ChainBuilder._verify_party_connections`: trivially verified below two
deeds; otherwise append one BROKEN_CHAIN issue per flagged consecutive pair
and set `verified` to whether none was flagged. -/
def verifyPartyConnections (ch : BuilderChain) : BuilderChain :=
  let deeds := chainDeeds ch
  if deeds.length < 2 then { ch with verified := true }
  else
    let newIssues := verifyPairIssues ch.chain_id deeds
    { ch with issues := ch.issues ++ newIssues, verified := newIssues.isEmpty }

/-- C1 (amended): `ChainBuilder._names_match` returns true exactly when the
names are identical; or both tokenizations are nonempty and either (a) at
least one whole name contains a corporate marker substring and the count of
significant words of the first name occurring among those of the second
reaches `min 2 (min |w1| |w2|)`, or (b) the two last tokens are identical —
regardless of the first tokens. -/
theorem namesMatchCharacterization (name1 name2 : String) :
    namesMatch name1 name2 = true ↔
      name1 = name2 ∨
        ((pySplit name1).isEmpty = false ∧ (pySplit name2).isEmpty = false ∧
          (((corpMarkers.any (fun c => strContains name1 c) ||
             corpMarkers.any (fun c => strContains name2 c)) = true ∧
            min 2 (min (significantWords name1).length (significantWords name2).length) ≤
              sharedSignificantCount name1 name2) ∨
           (pySplit name1).getLast? = (pySplit name2).getLast?)) := by
  unfold namesMatch
  by_cases heq : name1 = name2
  · simp [heq]
  · cases hb1 : (pySplit name1).isEmpty with
    | true => simp [heq, hb1]
    | false =>
      cases hb2 : (pySplit name2).isEmpty with
      | true => simp [heq, hb2]
      | false =>
        have hne1 : pySplit name1 ≠ [] := by simpa [List.isEmpty_eq_false] using hb1
        have hne2 : pySplit name2 ≠ [] := by simpa [List.isEmpty_eq_false] using hb2
        obtain ⟨l1, hl1⟩ : ∃ a, (pySplit name1).getLast? = some a := by
          cases hx : (pySplit name1).getLast? with
          | none => exact absurd (List.getLast?_eq_none_iff.mp hx) hne1
          | some a => exact ⟨a, rfl⟩
        obtain ⟨l2, hl2⟩ : ∃ a, (pySplit name2).getLast? = some a := by
          cases hx : (pySplit name2).getLast? with
          | none => exact absurd (List.getLast?_eq_none_iff.mp hx) hne2
          | some a => exact ⟨a, rfl⟩
        by_cases hcorp : (corpMarkers.any (fun c => strContains name1 c) ||
             corpMarkers.any (fun c => strContains name2 c)) = true
        · by_cases hshare : min 2 (min (significantWords name1).length (significantWords name2).length) ≤
              sharedSignificantCount name1 name2
          · simp [hb1, hb2, hcorp, hshare, heq]
          · by_cases hll : l1 = l2
            · subst hll
              simp [hb1, hb2, hcorp, hshare, heq, hl1, hl2]
            · simp [hb1, hb2, hcorp, hshare, heq, hl1, hl2, hll]
        · by_cases hll : l1 = l2
          · subst hll
            simp [hb1, hb2, hcorp, heq, hl1, hl2]
          · simp [hb1, hb2, hcorp, heq, hl1, hl2, hll]

/-- C1 counterexample: two multi-token normalized names with identical last
tokens, different first tokens, neither first token a single-initial prefix of
the other, and no corporate marker — yet `_names_match` accepts them, because
the last-token branch returns true unconditionally. -/
theorem namesMatchLastTokenCounterexample :
    namesMatch "john smith" "mary smith" = true ∧
    normalizeName "john smith" = "john smith" ∧
    normalizeName "mary smith" = "mary smith" ∧
    pySplit "john smith" = ["john", "smith"] ∧
    pySplit "mary smith" = ["mary", "smith"] ∧
    ("john" = "mary") = False ∧
    (strLen "john" = 1) = False ∧
    (strLen "mary" = 1) = False ∧
    (corpMarkers.any (fun c => strContains "john smith" c) ||
      corpMarkers.any (fun c => strContains "mary smith" c)) = false := by
  refine ⟨rfl, rfl, rfl, rfl, rfl, by simp, by simp [strLen], by simp [strLen], rfl⟩

/-- C1 witness: the characterization applied at a concrete pair, matched
through the last-token case. -/
theorem namesMatchCharacterizationWitness :
    namesMatch "henry h rouse" "henry rouse" = true :=
  (namesMatchCharacterization "henry h rouse" "henry rouse").mpr
    (Or.inr ⟨rfl, rfl, Or.inr rfl⟩)

theorem compareSubdivisionRuleSym (a b : ParsedDescription) :
    compareSubdivisionRule b a = dualResult (compareSubdivisionRule a b) := by
  unfold compareSubdivisionRule
  by_cases h : strTruthy a.subdivision = true ∧ strTruthy b.subdivision = true
  · rw [if_pos ⟨h.2, h.1⟩, if_pos h]
    by_cases he : pyTrim (pyLower (a.subdivision.getD "")) = pyTrim (pyLower (b.subdivision.getD ""))
    · rw [if_pos he.symm, if_pos he]
      rfl
    · rw [if_neg (fun hh => he hh.symm), if_neg he]
      rfl
  · rw [if_neg (fun hh => h ⟨hh.2, hh.1⟩), if_neg h]
    rfl

theorem compareAddressRuleSym (a b : ParsedDescription) :
    compareAddressRule b a = dualResult (compareAddressRule a b) := by
  unfold compareAddressRule
  by_cases h : strTruthy a.street_address = true ∧ strTruthy b.street_address = true
  · rw [if_pos ⟨h.2, h.1⟩, if_pos h]
    by_cases he : pyTrim (pyLower (a.street_address.getD "")) = pyTrim (pyLower (b.street_address.getD ""))
    · rw [if_pos he.symm, if_pos he]
      rfl
    · rw [if_neg (fun hh => he hh.symm), if_neg he]
      rfl
  · rw [if_neg (fun hh => h ⟨hh.2, hh.1⟩), if_neg h]
    exact compareSubdivisionRuleSym a b

theorem compareLotsRuleSym (a b : ParsedDescription) :
    compareLotsRule b a = dualResult (compareLotsRule a b) := by
  simp only [compareLotsRule]
  by_cases h : a.lot_numbers.toFinset.Nonempty ∧ b.lot_numbers.toFinset.Nonempty
  · rw [if_pos ⟨h.2, h.1⟩, if_pos h]
    by_cases heq : a.lot_numbers.toFinset = b.lot_numbers.toFinset
    · rw [if_pos heq.symm, if_pos heq]
      rfl
    · rw [if_neg (fun hh => heq hh.symm), if_neg heq]
      by_cases hab : a.lot_numbers.toFinset ⊆ b.lot_numbers.toFinset
      · have hba : ¬ b.lot_numbers.toFinset ⊆ a.lot_numbers.toFinset :=
          fun hh => heq (Finset.Subset.antisymm hab hh)
        rw [if_neg hba, if_pos hab, if_pos hab]
        rfl
      · by_cases hba : b.lot_numbers.toFinset ⊆ a.lot_numbers.toFinset
        · rw [if_pos hba, if_neg hab, if_pos hba]
          rfl
        · rw [if_neg hba, if_neg hab, if_neg hab, if_neg hba]
          by_cases hint : (a.lot_numbers.toFinset ∩ b.lot_numbers.toFinset).Nonempty
          · have hint' : (b.lot_numbers.toFinset ∩ a.lot_numbers.toFinset).Nonempty := by
              rwa [Finset.inter_comm]
            rw [if_pos hint', if_pos hint]
            rfl
          · have hint' : ¬ (b.lot_numbers.toFinset ∩ a.lot_numbers.toFinset).Nonempty := by
              rwa [Finset.inter_comm]
            rw [if_neg hint', if_neg hint]
            rfl
  · rw [if_neg (fun hh => h ⟨hh.2, hh.1⟩), if_neg h]
    exact compareAddressRuleSym a b

theorem compareTaxRuleSym (a b : ParsedDescription) :
    compareTaxRule b a = dualResult (compareTaxRule a b) := by
  unfold compareTaxRule
  by_cases h : strTruthy a.tax_parcel_id = true ∧ strTruthy b.tax_parcel_id = true
  · rw [if_pos ⟨h.2, h.1⟩, if_pos h]
    by_cases he : a.tax_parcel_id.getD "" = b.tax_parcel_id.getD ""
    · rw [if_pos he.symm, if_pos he]
      rfl
    · rw [if_neg (fun hh => he hh.symm), if_neg he]
      rfl
  · rw [if_neg (fun hh => h ⟨hh.2, hh.1⟩), if_neg h]
    exact compareLotsRuleSym a b

theorem compareDeedRuleSym (a b : ParsedDescription) :
    compareDeedRule b a = dualResult (compareDeedRule a b) := by
  unfold compareDeedRule
  cases ha : a.deed_reference with
  | none =>
    cases hb : b.deed_reference with
    | none => exact compareTaxRuleSym a b
    | some rb => exact compareTaxRuleSym a b
  | some ra =>
    cases hb : b.deed_reference with
    | none => exact compareTaxRuleSym a b
    | some rb =>
      dsimp only
      by_cases he : ra.book = rb.book ∧ ra.page = rb.page
      · rw [if_pos ⟨he.1.symm, he.2.symm⟩, if_pos he]
        rfl
      · rw [if_neg (fun hh => he ⟨hh.1.symm, hh.2.symm⟩), if_neg he]
        exact compareTaxRuleSym a b

theorem compareDescriptionsSym (a b : ParsedDescription) :
    compareDescriptions b a = dualResult (compareDescriptions a b) := by
  unfold compareDescriptions
  cases ha : a.metes_bounds with
  | none =>
    cases hb : b.metes_bounds with
    | none => exact compareDeedRuleSym a b
    | some mbb => exact compareDeedRuleSym a b
  | some mba =>
    cases hb : b.metes_bounds with
    | none => exact compareDeedRuleSym a b
    | some mbb =>
      dsimp only
      by_cases he : mba.starting_point.getD "" ≠ "" ∧ mbb.starting_point.getD "" ≠ "" ∧
          pyTrim (pyLower (mba.starting_point.getD "")) = pyTrim (pyLower (mbb.starting_point.getD ""))
      · rw [if_pos ⟨he.2.1, he.1, he.2.2.symm⟩, if_pos he]
        rfl
      · rw [if_neg (fun hh => he ⟨hh.2.1, hh.1, hh.2.2.symm⟩), if_neg he]
        rfl

/-- C10: `LegalDescriptionParser.compare` is symmetric up to subset/superset
duality: swapping the arguments fixes SAME, PARTIAL_OVERLAP and DIFFERENT and
exchanges SUBSET with SUPERSET. -/
theorem compareDescriptionsSymmetric (a b : ParsedDescription) :
    (compareDescriptions a b = "SAME" ↔ compareDescriptions b a = "SAME") ∧
    (compareDescriptions a b = "SUBSET" ↔ compareDescriptions b a = "SUPERSET") ∧
    (compareDescriptions a b = "SUPERSET" ↔ compareDescriptions b a = "SUBSET") ∧
    (compareDescriptions a b = "PARTIAL_OVERLAP" ↔ compareDescriptions b a = "PARTIAL_OVERLAP") ∧
    (compareDescriptions a b = "DIFFERENT" ↔ compareDescriptions b a = "DIFFERENT") := by
  rw [compareDescriptionsSym a b]
  unfold dualResult
  split_ifs with h1 h2
  · rw [h1]
    decide
  · rw [h2]
    decide
  · simp [h1, h2]

theorem compareDescriptionsFallsToDeed (a b : ParsedDescription)
    (hmb : a.metes_bounds = none ∨ b.metes_bounds = none) :
    compareDescriptions a b = compareDeedRule a b := by
  unfold compareDescriptions
  rcases hmb with h | h
  · rw [h]
  · cases hmba : a.metes_bounds with
    | none => rfl
    | some mba => rw [h]

/-- C3 (amended): when both parsed descriptions carry a deed reference (and
the metes-and-bounds rule does not apply), a book-and-page match concludes
SAME; a mismatch does NOT conclude — evaluation falls through to the
lower-priority rules (tax parcel, lots, address, subdivision), which can still
produce any outcome. -/
theorem compareDeedRefRule (a b : ParsedDescription) (ra rb : DeedRef)
    (hmb : a.metes_bounds = none ∨ b.metes_bounds = none)
    (ha : a.deed_reference = some ra) (hb : b.deed_reference = some rb) :
    (ra.book = rb.book ∧ ra.page = rb.page → compareDescriptions a b = "SAME") ∧
    (¬(ra.book = rb.book ∧ ra.page = rb.page) →
      compareDescriptions a b = compareTaxRule a b) := by
  have hfall := compareDescriptionsFallsToDeed a b hmb
  constructor
  · intro he
    rw [hfall]
    unfold compareDeedRule
    rw [ha, hb]
    dsimp only
    rw [if_pos he]
  · intro he
    rw [hfall]
    unfold compareDeedRule
    rw [ha, hb]
    dsimp only
    rw [if_neg he]

/-- C3 counterexample: both sides have deed references whose books and pages
differ, yet `compare` returns SAME (the equal tax parcel ids decide), so the
deed-reference rule neither short-circuits nor is SAME equivalent to a
book/page match. -/
theorem compareDeedRefCounterexample :
    compareDescriptions
      ⟨none, some ⟨"1", "2", "Book 1 Page 2"⟩, some "123-45-6", [], [], none, none, none, ""⟩
      ⟨none, some ⟨"3", "4", "Book 3 Page 4"⟩, some "123-45-6", [], [], none, none, none, ""⟩
      = "SAME" ∧ ("1" = "3") = False ∧ ("2" = "4") = False := by
  refine ⟨rfl, by simp, by simp⟩

/-- C3 witness: the amended rule applied at concrete descriptions with equal
book and page. -/
theorem compareDeedRefRuleWitness :
    compareDescriptions
      ⟨none, some ⟨"10", "20", "r"⟩, none, [], [], none, none, none, ""⟩
      ⟨none, some ⟨"10", "20", "r"⟩, none, [], [], none, none, none, ""⟩ = "SAME" :=
  (compareDeedRefRule
      ⟨none, some ⟨"10", "20", "r"⟩, none, [], [], none, none, none, ""⟩
      ⟨none, some ⟨"10", "20", "r"⟩, none, [], [], none, none, none, ""⟩
      ⟨"10", "20", "r"⟩ ⟨"10", "20", "r"⟩ (Or.inl rfl) rfl rfl).1 ⟨rfl, rfl⟩

/-- C4: when no priority rule of `LegalDescriptionParser.compare` has both
sides populated, the result is the conservative default DIFFERENT. -/
theorem compareConservativeDifferent (a b : ParsedDescription)
    (hmb : a.metes_bounds = none ∨ b.metes_bounds = none)
    (hdr : a.deed_reference = none ∨ b.deed_reference = none)
    (htax : strTruthy a.tax_parcel_id = false ∨ strTruthy b.tax_parcel_id = false)
    (hlots : a.lot_numbers = [] ∨ b.lot_numbers = [])
    (haddr : strTruthy a.street_address = false ∨ strTruthy b.street_address = false)
    (hsub : strTruthy a.subdivision = false ∨ strTruthy b.subdivision = false) :
    compareDescriptions a b = "DIFFERENT" := by
  rw [compareDescriptionsFallsToDeed a b hmb]
  have hdeed : compareDeedRule a b = compareTaxRule a b := by
    unfold compareDeedRule
    rcases hdr with h | h
    · rw [h]
    · cases hda : a.deed_reference with
      | none => rfl
      | some ra => rw [h]
  rw [hdeed]
  have htax' : compareTaxRule a b = compareLotsRule a b := by
    unfold compareTaxRule
    rw [if_neg]
    rintro ⟨h1, h2⟩
    rcases htax with h | h
    · rw [h] at h1
      exact Bool.false_ne_true h1
    · rw [h] at h2
      exact Bool.false_ne_true h2
  rw [htax']
  have hlots' : compareLotsRule a b = compareAddressRule a b := by
    simp only [compareLotsRule]
    rw [if_neg]
    rintro ⟨h1, h2⟩
    rcases hlots with h | h
    · rw [h] at h1
      simp at h1
    · rw [h] at h2
      simp at h2
  rw [hlots']
  have haddr' : compareAddressRule a b = compareSubdivisionRule a b := by
    unfold compareAddressRule
    rw [if_neg]
    rintro ⟨h1, h2⟩
    rcases haddr with h | h
    · rw [h] at h1
      exact Bool.false_ne_true h1
    · rw [h] at h2
      exact Bool.false_ne_true h2
  rw [haddr']
  unfold compareSubdivisionRule
  rw [if_neg]
  rintro ⟨h1, h2⟩
  rcases hsub with h | h
  · rw [h] at h1
    exact Bool.false_ne_true h1
  · rw [h] at h2
    exact Bool.false_ne_true h2

/-- C4 witness: two completely empty parsed descriptions compare as
DIFFERENT. -/
theorem compareConservativeDifferentWitness :
    compareDescriptions
      ⟨none, none, none, [], [], none, none, none, ""⟩
      ⟨none, none, none, [], [], none, none, none, ""⟩ = "DIFFERENT" :=
  compareConservativeDifferent
    ⟨none, none, none, [], [], none, none, none, ""⟩
    ⟨none, none, none, [], [], none, none, none, ""⟩
    (Or.inl rfl) (Or.inl rfl) (Or.inl rfl) (Or.inl rfl) (Or.inl rfl) (Or.inl rfl)

theorem deduplicateInventoryGoAppend (rest : List InventoryEntry) :
    ∀ acc seen, ∃ s, List.Sublist s rest ∧
      deduplicateInventoryGo rest acc seen = acc ++ s := by
  induction rest with
  | nil =>
    intro acc seen
    exact ⟨[], List.Sublist.refl _, by simp [deduplicateInventoryGo]⟩
  | cons d rest ih =>
    intro acc seen
    simp only [deduplicateInventoryGo]
    split_ifs with h1 h2 h3
    · obtain ⟨s, hs, heq⟩ := ih (acc ++ [d]) seen
      exact ⟨d :: s, List.Sublist.cons₂ d hs, by rw [heq]; simp⟩
    · obtain ⟨s, hs, heq⟩ := ih acc seen
      exact ⟨s, List.Sublist.cons d hs, heq⟩
    · obtain ⟨s, hs, heq⟩ := ih acc seen
      exact ⟨s, List.Sublist.cons d hs, heq⟩
    · obtain ⟨s, hs, heq⟩ := ih (acc ++ [d]) _
      exact ⟨d :: s, List.Sublist.cons₂ d hs, by rw [heq]; simp⟩

theorem deduplicateInventoryGoKeeps (rest : List InventoryEntry) :
    ∀ acc seen,
      (∀ x ∈ acc, x ∈ deduplicateInventoryGo rest acc seen) ∧
      (∀ d ∈ rest, (intTruthy d.pstart && intTruthy d.pend) = false →
        d ∈ deduplicateInventoryGo rest acc seen) := by
  induction rest with
  | nil =>
    intro acc seen
    refine ⟨fun x hx => by simpa [deduplicateInventoryGo] using hx, fun d hd => by simp at hd⟩
  | cons d rest ih =>
    intro acc seen
    simp only [deduplicateInventoryGo]
    split_ifs with h1 h2 h3
    · refine ⟨fun x hx => (ih (acc ++ [d]) seen).1 x (by simp [hx]), ?_⟩
      intro d0 hd0 hmiss
      rcases List.mem_cons.mp hd0 with rfl | hmem
      · exact (ih (acc ++ [d0]) seen).1 d0 (by simp)
      · exact (ih (acc ++ [d]) seen).2 d0 hmem hmiss
    · refine ⟨fun x hx => (ih acc seen).1 x hx, ?_⟩
      intro d0 hd0 hmiss
      rcases List.mem_cons.mp hd0 with rfl | hmem
      · exfalso
        simp [hmiss] at h1
      · exact (ih acc seen).2 d0 hmem hmiss
    · refine ⟨fun x hx => (ih acc seen).1 x hx, ?_⟩
      intro d0 hd0 hmiss
      rcases List.mem_cons.mp hd0 with rfl | hmem
      · exfalso
        simp [hmiss] at h1
      · exact (ih acc seen).2 d0 hmem hmiss
    · refine ⟨fun x hx => (ih (acc ++ [d]) _).1 x (by simp [hx]), ?_⟩
      intro d0 hd0 hmiss
      rcases List.mem_cons.mp hd0 with rfl | hmem
      · exact (ih (acc ++ [d0]) _).1 d0 (by simp)
      · exact (ih (acc ++ [d]) _).2 d0 hmem hmiss

/-- C9: `deduplicate_inventory` returns an order-preserving subsequence of its
input, and every entry whose start or end page is missing (Python-falsy) is
kept.  The function is total by construction, so no input raises. -/
theorem deduplicateInventorySpec (inventory : List InventoryEntry) :
    List.Sublist (deduplicateInventory inventory) inventory ∧
    ∀ d ∈ inventory, (intTruthy d.pstart && intTruthy d.pend) = false →
      d ∈ deduplicateInventory inventory := by
  unfold deduplicateInventory
  by_cases h : inventory.isEmpty
  · rw [if_pos h]
    exact ⟨List.Sublist.refl _, fun d hd _ => hd⟩
  · rw [if_neg h]
    obtain ⟨s, hs, heq⟩ := deduplicateInventoryGoAppend inventory [] []
    refine ⟨by rw [heq]; simpa using hs, ?_⟩
    intro d hd hmiss
    exact (deduplicateInventoryGoKeeps inventory [] []).2 d hd hmiss

/-- C9 witness: an entry with a missing start page survives pass-1 dedup even
next to an overlapping entry of the same type. -/
theorem deduplicateInventorySpecWitness :
    (⟨"deed", none, some 3⟩ : InventoryEntry) ∈
      deduplicateInventory [⟨"deed", none, some 3⟩, ⟨"deed", some 1, some 3⟩] :=
  (deduplicateInventorySpec [⟨"deed", none, some 3⟩, ⟨"deed", some 1, some 3⟩]).2
    ⟨"deed", none, some 3⟩ (by simp) rfl

theorem mergeDocumentsIdent (existing duplicate : DedupDoc) :
    (mergeDocuments existing duplicate).ident = existing.ident := rfl

theorem mergeIntoFirstSimilarNone (textSim : String → String → ℚ) (d : DedupDoc) :
    ∀ acc : List DedupDoc,
      (mergeIntoFirstSimilar textSim d acc = none ↔
        ∀ e ∈ acc, calculateDocumentSimilarity textSim d.ident e.ident < 0.85) := by
  intro acc
  induction acc with
  | nil => simp [mergeIntoFirstSimilar]
  | cons e es ih =>
    simp only [mergeIntoFirstSimilar]
    by_cases h : (0.85 : ℚ) ≤ calculateDocumentSimilarity textSim d.ident e.ident
    · rw [if_pos h]
      exact iff_of_false (by simp)
        (fun hall => absurd (hall e (by simp)) (not_lt.mpr h))
    · rw [if_neg h]
      constructor
      · intro hmap x hx
        rcases List.mem_cons.mp hx with rfl | hmem
        · exact not_le.mp h
        · exact ih.mp (Option.map_eq_none'.mp hmap) x hmem
      · intro hall
        rw [Option.map_eq_none']
        exact ih.mpr (fun x hx => hall x (List.mem_cons_of_mem _ hx))

theorem mergeIntoFirstSimilarIdents (textSim : String → String → ℚ) (d : DedupDoc) :
    ∀ acc acc2 : List DedupDoc, mergeIntoFirstSimilar textSim d acc = some acc2 →
      acc2.map DedupDoc.ident = acc.map DedupDoc.ident := by
  intro acc
  induction acc with
  | nil => intro acc2 h; simp [mergeIntoFirstSimilar] at h
  | cons e es ih =>
    intro acc2 h
    simp only [mergeIntoFirstSimilar] at h
    by_cases hle : (0.85 : ℚ) ≤ calculateDocumentSimilarity textSim d.ident e.ident
    · rw [if_pos hle] at h
      have : mergeDocuments e d :: es = acc2 := Option.some.inj h
      subst this
      simp [mergeDocumentsIdent]
    · rw [if_neg hle] at h
      obtain ⟨l, hl, rfl⟩ := Option.map_eq_some'.mp h
      simp [ih l hl]

theorem dedupGoPairwise (textSim : String → String → ℚ) :
    ∀ rest acc : List DedupDoc,
      (acc.map DedupDoc.ident).Pairwise
        (fun a b => calculateDocumentSimilarity textSim b a < 0.85) →
      ((deduplicateDocumentsGo textSim rest acc).map DedupDoc.ident).Pairwise
        (fun a b => calculateDocumentSimilarity textSim b a < 0.85) := by
  intro rest
  induction rest with
  | nil => intro acc h; simpa [deduplicateDocumentsGo] using h
  | cons d rest ih =>
    intro acc h
    simp only [deduplicateDocumentsGo]
    cases hm : mergeIntoFirstSimilar textSim d acc with
    | some acc2 =>
      exact ih acc2 (by rw [mergeIntoFirstSimilarIdents textSim d acc acc2 hm]; exact h)
    | none =>
      apply ih
      rw [List.map_append, List.pairwise_append]
      refine ⟨h, by simp, ?_⟩
      intro a ha b hb
      simp only [List.map_cons, List.map_nil, List.mem_singleton] at hb
      subst hb
      obtain ⟨x, hx, rfl⟩ := List.mem_map.mp ha
      exact (mergeIntoFirstSimilarNone textSim d acc).mp hm x hx

theorem dedupGoNoMerge (textSim : String → String → ℚ) :
    ∀ rest acc : List DedupDoc,
      (∀ d ∈ rest, ∀ e ∈ acc,
        calculateDocumentSimilarity textSim d.ident e.ident < 0.85) →
      rest.Pairwise
        (fun a b => calculateDocumentSimilarity textSim b.ident a.ident < 0.85) →
      deduplicateDocumentsGo textSim rest acc = acc ++ rest := by
  intro rest
  induction rest with
  | nil => intro acc _ _; simp [deduplicateDocumentsGo]
  | cons d rest ih =>
    intro acc hcross hpw
    simp only [deduplicateDocumentsGo]
    have hnone : mergeIntoFirstSimilar textSim d acc = none :=
      (mergeIntoFirstSimilarNone textSim d acc).mpr
        (fun e he => hcross d (by simp) e he)
    rw [hnone]
    have hrec := ih (acc ++ [d]) ?_ ((List.pairwise_cons.mp hpw).2)
    · rw [hrec]
      simp
    · intro d' hd' e he
      rcases List.mem_append.mp he with hmem | hmem
      · exact hcross d' (List.mem_cons_of_mem _ hd') e hmem
      · rw [List.mem_singleton.mp hmem]
        exact (List.pairwise_cons.mp hpw).1 d' hd'

/-- C5: the document deduplicator is idempotent.  `textSim` models the
standard library's sequence-similarity ratio; idempotence holds for every
such function because merging never changes the fields similarity reads. -/
theorem deduplicateDocumentsIdempotent (textSim : String → String → ℚ)
    (documents : List DedupDoc) :
    deduplicateDocuments textSim (deduplicateDocuments textSim documents) =
      deduplicateDocuments textSim documents := by
  by_cases h : documents.length ≤ 1
  · have hin : deduplicateDocuments textSim documents = documents := by
      unfold deduplicateDocuments
      rw [if_pos h]
    rw [hin, hin]
  · have hin : deduplicateDocuments textSim documents =
        deduplicateDocumentsGo textSim documents [] := by
      unfold deduplicateDocuments
      rw [if_neg h]
    have hpw : (deduplicateDocumentsGo textSim documents []).Pairwise
        (fun a b => calculateDocumentSimilarity textSim b.ident a.ident < 0.85) := by
      have hmapped := dedupGoPairwise textSim documents [] (by simp)
      rwa [List.pairwise_map] at hmapped
    rw [hin]
    unfold deduplicateDocuments
    by_cases h2 : (deduplicateDocumentsGo textSim documents []).length ≤ 1
    · rw [if_pos h2]
    · rw [if_neg h2]
      have hng := dedupGoNoMerge textSim (deduplicateDocumentsGo textSim documents []) []
        (by intro d hd e he; simp at he) hpw
      simpa using hng

/-- C6: merging preserves discharge information: if the duplicate's notes
carry a discharge keyword and the existing record's notes do not, the merged
notes are the duplicate's notes verbatim; if the existing notes already carry
a discharge keyword they are left unchanged. -/
theorem mergeDocumentsDischarge (existing duplicate : DedupDoc) :
    (hasDischargeInfo duplicate.notes = true → hasDischargeInfo existing.notes = false →
      (mergeDocuments existing duplicate).notes = duplicate.notes) ∧
    (hasDischargeInfo existing.notes = true →
      (mergeDocuments existing duplicate).notes = existing.notes) := by
  constructor
  · intro h1 h2
    show (if hasDischargeInfo duplicate.notes = true ∧ hasDischargeInfo existing.notes = false
        then duplicate.notes
        else if hasDischargeInfo existing.notes = true then existing.notes
        else if duplicate.notes ≠ "" ∧ duplicate.notes ≠ existing.notes then
          (if existing.notes ≠ "" then existing.notes ++ " | " ++ duplicate.notes
           else duplicate.notes)
        else existing.notes) = duplicate.notes
    rw [if_pos ⟨h1, h2⟩]
  · intro h1
    show (if hasDischargeInfo duplicate.notes = true ∧ hasDischargeInfo existing.notes = false
        then duplicate.notes
        else if hasDischargeInfo existing.notes = true then existing.notes
        else if duplicate.notes ≠ "" ∧ duplicate.notes ≠ existing.notes then
          (if existing.notes ≠ "" then existing.notes ++ " | " ++ duplicate.notes
           else duplicate.notes)
        else existing.notes) = existing.notes
    have hnot : ¬(hasDischargeInfo duplicate.notes = true ∧
        hasDischargeInfo existing.notes = false) := by
      rintro ⟨-, hfalse⟩
      rw [h1] at hfalse
      exact absurd hfalse (by simp)
    rw [if_neg hnot, if_pos h1]

/-- C6 witness: a duplicate whose notes say "Satisfied in full" replaces the
dischargeless notes of the existing record verbatim. -/
theorem mergeDocumentsDischargeWitness :
    (mergeDocuments
      ⟨⟨none, none, none, [], [], none⟩, "prior balance note", ⟨some 1, some 2, none⟩, none⟩
      ⟨⟨none, none, none, [], [], none⟩, "Satisfied in full", ⟨some 5, some 6, none⟩, none⟩).notes
      = "Satisfied in full" :=
  (mergeDocumentsDischarge
    ⟨⟨none, none, none, [], [], none⟩, "prior balance note", ⟨some 1, some 2, none⟩, none⟩
    ⟨⟨none, none, none, [], [], none⟩, "Satisfied in full", ⟨some 5, some 6, none⟩, none⟩).1
    rfl rfl

/-- C2 (code bug): the final chain sort keys on the RAW `earliest_date`
string, so lexicographic string order decides.  At this input the chain whose
earliest record date is "April 1, 2020" sorts BEFORE the chain dated
"January 1, 1900" ("A" < "J" as characters), although its parsed date key is
strictly later — contradicting both the claim and the source's own
"oldest first" comment and its unused `_date_sort_key` helper. -/
theorem chainSortChronologyBug :
    sortChainsByEarliestDate
      [⟨"chain_1", [1], "April 1, 2020"⟩, ⟨"chain_2", [2], "January 1, 1900"⟩] =
      [⟨"chain_1", [1], "April 1, 2020"⟩, ⟨"chain_2", [2], "January 1, 1900"⟩] ∧
    getEarliestDate ["April 1, 2020"] = "April 1, 2020" ∧
    getEarliestDate ["January 1, 1900"] = "January 1, 1900" ∧
    dateSortKey "January 1, 1900" = (1900, 1, 1) ∧
    dateSortKey "April 1, 2020" = (2020, 4, 1) ∧
    dateKeyLe (dateSortKey "January 1, 1900") (dateSortKey "April 1, 2020") ∧
    ¬ dateKeyLe (dateSortKey "April 1, 2020") (dateSortKey "January 1, 1900") := by
  refine ⟨rfl, rfl, rfl, rfl, rfl, ?_, ?_⟩
  · rw [show dateSortKey "January 1, 1900" = (1900, 1, 1) from rfl,
        show dateSortKey "April 1, 2020" = (2020, 4, 1) from rfl]
    exact Or.inl (by norm_num)
  · rw [show dateSortKey "January 1, 1900" = (1900, 1, 1) from rfl,
        show dateSortKey "April 1, 2020" = (2020, 4, 1) from rfl]
    rintro (h | ⟨h, -⟩)
    · omega
    · omega

/-- C7: in the output of `analyze_chain`, documents whose record date is
missing or unparseable keep their relative input order (the undated
subsequences coincide), and every undated document appears after every dated
one (datedness is downward closed along the output positions). -/
theorem analyzeChainSortStability (documents : List AnalyzerDoc) :
    ((analyzeChainSorted documents).filter (fun d => !analyzerDated d) =
      documents.filter (fun d => !analyzerDated d)) ∧
    (∀ i j : Nat, ∀ hi : i < (analyzeChainSorted documents).length,
      ∀ hj : j < (analyzeChainSorted documents).length, i ≤ j →
      analyzerDated ((analyzeChainSorted documents)[j]) = true →
      analyzerDated ((analyzeChainSorted documents)[i]) = true) := by
  unfold analyzeChainSorted
  by_cases hemp : documents.isEmpty
  · rw [if_pos hemp]
    exact ⟨rfl, fun i j hi hj _ _ => absurd hi (by simp_all [List.isEmpty_iff])⟩
  · rw [if_neg hemp]
    simp only [List.partition_eq_filter_filter, Function.comp_def]
    have hsortedMem : ∀ x ∈ (documents.filter analyzerDated).insertionSort
        (fun d1 d2 => dateKeyLe (analyzerSortKey d1) (analyzerSortKey d2)),
        analyzerDated x = true := by
      intro x hx
      exact List.of_mem_filter ((List.mem_insertionSort _).mp hx)
    constructor
    · rw [List.filter_append]
      have h1 : ((documents.filter analyzerDated).insertionSort
          (fun d1 d2 => dateKeyLe (analyzerSortKey d1) (analyzerSortKey d2))).filter
            (fun d => !analyzerDated d) = [] := by
        rw [List.filter_eq_nil_iff]
        intro x hx
        simp [hsortedMem x hx]
      have h2 : (documents.filter (fun d => !analyzerDated d)).filter
          (fun d => !analyzerDated d) = documents.filter (fun d => !analyzerDated d) :=
        List.filter_eq_self.mpr
          (fun x (hx : x ∈ documents.filter (fun d => !analyzerDated d)) => by
            simpa using List.of_mem_filter hx)
      rw [h1, h2, List.nil_append]
    · intro i j hi hj hij hdj
      by_cases hiL : i < ((documents.filter analyzerDated).insertionSort
          (fun d1 d2 => dateKeyLe (analyzerSortKey d1) (analyzerSortKey d2))).length
      · rw [List.getElem_append_left hiL]
        exact hsortedMem _ (List.getElem_mem hiL)
      · exfalso
        have hjL : ¬ j < ((documents.filter analyzerDated).insertionSort
            (fun d1 d2 => dateKeyLe (analyzerSortKey d1) (analyzerSortKey d2))).length :=
          fun hc => hiL (Nat.lt_of_le_of_lt hij hc)
        rw [List.getElem_append_right (Nat.le_of_not_lt hjL)] at hdj
        have hjR : j - ((documents.filter analyzerDated).insertionSort
            (fun d1 d2 => dateKeyLe (analyzerSortKey d1) (analyzerSortKey d2))).length <
            (documents.filter (fun d => !analyzerDated d)).length := by
          have := hj
          rw [List.length_append] at this
          omega
        have hx := List.of_mem_filter (List.getElem_mem hjR)
        simp only [Bool.not_eq_true'] at hx
        rw [hx] at hdj
        exact absurd hdj (by simp)

/-- C7 witness: a concrete run in which the undated documents trail the dated
ones; position 1 is dated, hence so is position 0. -/
theorem analyzeChainSortStabilityWitness :
    analyzerDated ((analyzeChainSorted
      [⟨some "June 1, 2005", some "Deed"⟩, ⟨none, some "Mortgage"⟩,
       ⟨some "January 1, 2000", some "Deed"⟩]).get ⟨0, by decide⟩) = true :=
  (analyzeChainSortStability
    [⟨some "June 1, 2005", some "Deed"⟩, ⟨none, some "Mortgage"⟩,
     ⟨some "January 1, 2000", some "Deed"⟩]).2 0 1 (by decide) (by decide)
    (by decide) (by decide)

theorem verifyPairIssuesMem (chainId : String) :
    ∀ (deeds : List VerifyDoc) (i : Nat) (h : i + 1 < deeds.length),
      pairShouldFlag deeds[i] deeds[i + 1] = true →
      brokenChainIssue chainId deeds[i] deeds[i + 1] ∈ verifyPairIssues chainId deeds := by
  intro deeds
  induction deeds with
  | nil => intro i h hf; exact absurd h (by simp)
  | cons a rest ih =>
    intro i h hf
    cases rest with
    | nil =>
      exact absurd h (by simp)
    | cons b rest2 =>
      cases i with
      | zero =>
        simp only [List.getElem_cons_zero, List.getElem_cons_succ] at hf ⊢
        show brokenChainIssue chainId a b ∈
          (if pairShouldFlag a b then [brokenChainIssue chainId a b] else []) ++
            verifyPairIssues chainId (b :: rest2)
        rw [if_pos hf]
        exact List.mem_append_left _ (List.mem_singleton_self _)
      | succ i2 =>
        simp only [List.getElem_cons_succ] at hf ⊢
        have hmem := ih i2 (by simpa using h) hf
        exact List.mem_append_right _ hmem

theorem verifyPairIssuesAllBroken (chainId : String) :
    ∀ deeds : List VerifyDoc, ∀ issue ∈ verifyPairIssues chainId deeds,
      issue.itype = "BROKEN_CHAIN" ∧ issue.severity = "CRITICAL" := by
  intro deeds
  induction deeds with
  | nil => intro issue h; simp [verifyPairIssues] at h
  | cons a rest ih =>
    cases rest with
    | nil => intro issue h; simp [verifyPairIssues] at h
    | cons b rest2 =>
      intro issue h
      simp only [verifyPairIssues] at h
      rcases List.mem_append.mp h with h1 | h2
      · by_cases hf : pairShouldFlag a b = true
        · rw [if_pos hf] at h1
          rw [List.mem_singleton.mp h1]
          exact ⟨rfl, rfl⟩
        · rw [if_neg hf] at h1
          simp at h1
      · exact ih issue h2

/-- C8 (amended): after `_verify_party_connections`: a chain with fewer than
2 deeds is verified with its issues untouched; every consecutive pair of
non-duplicate deeds whose party lists are BOTH non-empty and in which no
grantee of the earlier deed matches any grantor of the later deed yields a
CRITICAL BROKEN_CHAIN issue naming both document ids and makes the chain
unverified; and the appended issues are exactly BROKEN_CHAIN records, with
`verified` true precisely when none was appended. -/
theorem verifyPartyConnectionsSpec (ch : BuilderChain) :
    ((chainDeeds ch).length < 2 →
      (verifyPartyConnections ch).verified = true ∧
      (verifyPartyConnections ch).issues = ch.issues) ∧
    (∀ i : Nat, ∀ h : i + 1 < (chainDeeds ch).length,
      isDuplicateDeed (chainDeeds ch)[i] (chainDeeds ch)[i + 1] = false →
      ((chainDeeds ch)[i]).partiesTo ≠ [] →
      ((chainDeeds ch)[i + 1]).partiesFrom ≠ [] →
      grantorGranteeMatch ((chainDeeds ch)[i]).partiesTo
        ((chainDeeds ch)[i + 1]).partiesFrom = false →
      (∃ issue ∈ (verifyPartyConnections ch).issues,
        issue.itype = "BROKEN_CHAIN" ∧ issue.severity = "CRITICAL" ∧
        issue.chain_id = ch.chain_id ∧
        issue.doc_a = ((chainDeeds ch)[i]).doc_id ∧
        issue.doc_b = ((chainDeeds ch)[i + 1]).doc_id) ∧
      (verifyPartyConnections ch).verified = false) ∧
    (∃ nw : List Issue,
      (verifyPartyConnections ch).issues = ch.issues ++ nw ∧
      (∀ issue ∈ nw, issue.itype = "BROKEN_CHAIN" ∧ issue.severity = "CRITICAL") ∧
      ((verifyPartyConnections ch).verified = true ↔ nw = [])) := by
  refine ⟨?_, ?_, ?_⟩
  · intro hlt
    unfold verifyPartyConnections
    rw [if_pos hlt]
    exact ⟨rfl, rfl⟩
  · intro i h hdup hto hfrom hmatch
    have hge : ¬ (chainDeeds ch).length < 2 := by omega
    have hflag : pairShouldFlag (chainDeeds ch)[i] (chainDeeds ch)[i + 1] = true := by
      unfold pairShouldFlag
      rw [if_neg (by simp [hdup])]
      rw [if_neg (by simp [List.isEmpty_eq_false.mpr hto, List.isEmpty_eq_false.mpr hfrom])]
      rw [hmatch]
      rfl
    have hmem := verifyPairIssuesMem ch.chain_id (chainDeeds ch) i h hflag
    unfold verifyPartyConnections
    rw [if_neg hge]
    refine ⟨⟨brokenChainIssue ch.chain_id (chainDeeds ch)[i] (chainDeeds ch)[i + 1],
      List.mem_append_right _ hmem, rfl, rfl, rfl, rfl, rfl⟩, ?_⟩
    exact List.isEmpty_eq_false.mpr (List.ne_nil_of_mem hmem)
  · unfold verifyPartyConnections
    by_cases hlt : (chainDeeds ch).length < 2
    · rw [if_pos hlt]
      exact ⟨[], by simp, by simp, by simp⟩
    · rw [if_neg hlt]
      refine ⟨verifyPairIssues ch.chain_id (chainDeeds ch), rfl,
        fun issue hmem => verifyPairIssuesAllBroken ch.chain_id (chainDeeds ch) issue hmem, ?_⟩
      constructor
      · intro hv
        exact List.isEmpty_iff.mp hv
      · intro hnil
        show (verifyPairIssues ch.chain_id (chainDeeds ch)).isEmpty = true
        rw [hnil]
        rfl

/-- C8 counterexample: two consecutive non-duplicate deeds where the earlier
deed's grantee list is EMPTY — so no grantee name matches any grantor name,
yet the loop `continue`s without an issue: the chain is verified with no
BROKEN_CHAIN issue, contradicting the claim as stated. -/
theorem verifyPartyConnectionsCounterexample :
    (verifyPartyConnections
      ⟨"chain_1",
       [⟨1, "Deed", ["alice smith"], [], "book 1 page 1", "January 1, 1950"⟩,
        ⟨2, "Deed", ["bob jones"], ["carol white"], "book 2 page 2", "January 1, 1960"⟩],
       [], false⟩).verified = true ∧
    (verifyPartyConnections
      ⟨"chain_1",
       [⟨1, "Deed", ["alice smith"], [], "book 1 page 1", "January 1, 1950"⟩,
        ⟨2, "Deed", ["bob jones"], ["carol white"], "book 2 page 2", "January 1, 1960"⟩],
       [], false⟩).issues = [] ∧
    chainDeeds
      ⟨"chain_1",
       [⟨1, "Deed", ["alice smith"], [], "book 1 page 1", "January 1, 1950"⟩,
        ⟨2, "Deed", ["bob jones"], ["carol white"], "book 2 page 2", "January 1, 1960"⟩],
       [], false⟩ =
      [⟨1, "Deed", ["alice smith"], [], "book 1 page 1", "January 1, 1950"⟩,
       ⟨2, "Deed", ["bob jones"], ["carol white"], "book 2 page 2", "January 1, 1960"⟩] ∧
    isDuplicateDeed
      ⟨1, "Deed", ["alice smith"], [], "book 1 page 1", "January 1, 1950"⟩
      ⟨2, "Deed", ["bob jones"], ["carol white"], "book 2 page 2", "January 1, 1960"⟩ = false ∧
    (⟨1, "Deed", ["alice smith"], [], "book 1 page 1", "January 1, 1950"⟩ : VerifyDoc).partiesTo
      = [] :=
  ⟨rfl, rfl, rfl, rfl, rfl⟩

/-- C8 witness: a genuinely broken pair (non-empty unrelated party names)
produces a CRITICAL BROKEN_CHAIN issue with both document ids and leaves the
chain unverified. -/
theorem verifyPartyConnectionsSpecWitness :
    (∃ issue ∈ (verifyPartyConnections
        ⟨"chain_1",
         [⟨1, "Deed", ["seller one"], ["alice johnson"], "book 1 page 10", "January 1, 1950"⟩,
          ⟨2, "Deed", ["bob williams"], ["carol davis"], "book 2 page 20", "January 1, 1960"⟩],
         [], false⟩).issues,
      issue.itype = "BROKEN_CHAIN" ∧ issue.severity = "CRITICAL" ∧
      issue.chain_id = "chain_1" ∧ issue.doc_a = 1 ∧ issue.doc_b = 2) ∧
    (verifyPartyConnections
      ⟨"chain_1",
       [⟨1, "Deed", ["seller one"], ["alice johnson"], "book 1 page 10", "January 1, 1950"⟩,
        ⟨2, "Deed", ["bob williams"], ["carol davis"], "book 2 page 20", "January 1, 1960"⟩],
       [], false⟩).verified = false := by
  obtain ⟨⟨issue, hmem, h1, h2, h3, h4, h5⟩, hv⟩ :=
    (verifyPartyConnectionsSpec
      ⟨"chain_1",
       [⟨1, "Deed", ["seller one"], ["alice johnson"], "book 1 page 10", "January 1, 1950"⟩,
        ⟨2, "Deed", ["bob williams"], ["carol davis"], "book 2 page 20", "January 1, 1960"⟩],
       [], false⟩).2.1 0 (by decide) (by decide) (by decide) (by decide) (by decide)
  exact ⟨⟨issue, hmem, h1, h2, h3, h4.trans rfl, h5.trans rfl⟩, hv⟩
